import Mathlib

/-! Backing image manager: registry, broadcast flag and request handlers.

A shallow embedding of `pkg/manager/service.go`.  The manager's mutable fields
become an explicit `Manager` value that every operation takes and returns.
External collaborators (the sync agent, the data source, the peer manager, the
port bitmap, the file system) are passed in as records of outcomes, and every
call made to them is recorded in a call log, so that "is called", "is not
called" and "is called before" are statements about that log.

Go maps are association lists with one entry per key; ranging over a map is
walking the list, so a statement over all lists covers every iteration order.
-/

namespace BackingImageManager

/-! ## Data model -/

/-- The file information reported by the sync agent (`api.FileInfo`), with the
fields the manager reads. -/
structure FileInfo where
  FilePath : String
  UUID : String
  Size : Int
  ExpectedChecksum : String
  State : String
  CurrentChecksum : String
  Progress : Int
  Message : String
  SendingReference : Int
deriving DecidableEq, Repr

/-- The gRPC status codes the manager raises itself. -/
inductive Code where
  | InvalidArgument
  | NotFound
  | FailedPrecondition
deriving DecidableEq, Repr

/-- Errors: a gRPC status built by the manager (`status.Errorf`), a formatted
error (`fmt.Errorf`), an error handed back by a collaborator, or a wrapped
error (`errors.Wrapf`). -/
inductive Err where
  | status (code : Code) (msg : String)
  | fmt (msg : String)
  | external (msg : String)
  | wrapped (cause : Err) (msg : String)
deriving DecidableEq, Repr

/-- The constants and path helpers of package `types`, and the error test of
package `util`, which the manager uses but does not define. -/
structure Types where
  StatePending : String
  StateStarting : String
  StateReady : String
  StateReadyForTransfer : String
  GetBackingImageDirectory : String → String → String → String
  GetBackingImageFilePath : String → String → String → String
  GetDataSourceFilePath : String → String → String → String
  GetBackingImageNameFromFilePath : String → String → String
  IsHTTPClientErrorNotFound : Err → Bool

/-- The registry `map[string]*api.FileInfo`: one entry per key. -/
abbrev FileInfoMap := List (String × FileInfo)

/-- Map read `m[k]`: `none` stands for the nil pointer of a missing key. -/
def mapGet : FileInfoMap → String → Option FileInfo
  | [], _ => none
  | (k, v) :: rest, key => if k = key then some v else mapGet rest key

/-- Map write `m[k] = v`: the entry of `k` is replaced, or added. -/
def mapSet : FileInfoMap → String → FileInfo → FileInfoMap
  | [], key, val => [(key, val)]
  | (k, v) :: rest, key, val =>
    if k = key then (key, val) :: rest else (k, v) :: mapSet rest key val

/-- The keys a `range` over the map visits, in visiting order. -/
def mapKeys (m : FileInfoMap) : List String := m.map Prod.fst

/-- The manager's state that the handlers read and write. -/
structure Manager where
  diskUUID : String
  diskPath : String
  biFileInfoMap : FileInfoMap
  broadcastRequired : Bool
deriving DecidableEq, Repr

/-! ## The broadcast flag -/

/-- Source `checkBroadcasting`: read and clear the flag. -/
def checkBroadcasting (m : Manager) : Manager × Bool :=
  if m.broadcastRequired then
    ({ m with broadcastRequired := false }, true)
  else
    (m, false)

/-- One `ticker.C` iteration of `startBroadcasting`: the second component is
the list of values pushed to `broadcastCh` (each push sends `nil`). -/
def startBroadcastingTick (m : Manager) : Manager × List Unit :=
  let r := checkBroadcasting m
  if r.2 then (r.1, [()]) else (r.1, [])

/-! ## Refreshing the registry -/

/-- The first loop of `listAndUpdate`, one iteration: the entry is stored in
the new map under its derived name, and the flag is raised when it is not yet
set and `reflect.DeepEqual(m.biFileInfoMap[biName], fInfo)` holds. -/
def listStep (T : Types) (old : FileInfoMap) (acc : FileInfoMap × Bool)
    (e : String × FileInfo) : FileInfoMap × Bool :=
  let biName := T.GetBackingImageNameFromFilePath e.1 e.2.UUID
  let newBiFileInfoMap := mapSet acc.1 biName e.2
  if !acc.2 && decide (mapGet old biName = some e.2) then
    (newBiFileInfoMap, true)
  else
    (newBiFileInfoMap, acc.2)

/-- The first loop of `listAndUpdate` over the whole listing. -/
def listLoop (T : Types) (old : FileInfoMap) (fInfoList : List (String × FileInfo))
    (flag : Bool) : FileInfoMap × Bool :=
  fInfoList.foldl (listStep T old) ([], flag)

/-- The second loop of `listAndUpdate`: ranging over the keys of the old map,
the flag is raised at a key missing from the new map, and the loop stops as
soon as the flag is set. -/
def deletionLoop (newBiFileInfoMap : FileInfoMap) : List String → Bool → Bool
  | [], flag => flag
  | biName :: rest, flag =>
    let flag1 := if (mapGet newBiFileInfoMap biName).isNone then true else flag
    if flag1 then flag1 else deletionLoop newBiFileInfoMap rest flag1

/-- Source `listAndUpdate`, given the outcome of the sync agent's `List`. -/
def listAndUpdate (T : Types) (m : Manager)
    (list : Except Err (List (String × FileInfo))) :
    Manager × Except Err FileInfoMap :=
  match list with
  | .error err => (m, .error err)
  | .ok fInfoList =>
    let r := listLoop T m.biFileInfoMap fInfoList m.broadcastRequired
    let flag := deletionLoop r.1 (mapKeys m.biFileInfoMap) r.2
    ({ m with biFileInfoMap := r.1, broadcastRequired := flag }, .ok r.1)

/-- The map that the listing alone determines: every entry stored under the
name derived from its file path and UUID, later entries replacing earlier ones
of the same name. -/
def mapFromListing (T : Types) (fInfoList : List (String × FileInfo)) : FileInfoMap :=
  fInfoList.foldl
    (fun acc e => mapSet acc (T.GetBackingImageNameFromFilePath e.1 e.2.UUID) e.2) []

/-! ## Collaborators and the call log -/

/-- Go's conversion to `int32`, and `int32` arithmetic: the value modulo `2^32`
in the signed range. -/
def toInt32 (x : Int) : Int := (x + 2 ^ 31) % 2 ^ 32 - 2 ^ 31

/-- What a handler does to the outside: every call to a collaborator, and each
send on the port release channel of a `Sync` request. -/
inductive Call where
  | syncGet (filePath : String)
  | syncReceive (filePath uuid diskUUID checksum fromAddress : String) (port size : Int)
  | syncFetch (srcFilePath dstFilePath uuid diskUUID checksum : String) (size : Int)
  | syncDelete (filePath : String)
  | dsGet (remote : String)
  | dsTransfer (remote : String)
  | removeAll (dir : String)
  | allocateRange (count : Int)
  | releaseRange (start endPort : Int)
  | getIPForPod
  | peerSend (remote name uuid toAddress : String)
  | portReleaseSignal
deriving DecidableEq, Repr

/-- The outcomes of the sync agent (`client.SyncClient`); `none` is a nil
error. -/
structure SyncClient where
  Get : String → Except Err FileInfo
  Receive : String → String → String → String → String → Int → Int → Option Err
  Fetch : String → String → String → String → String → Int → Option Err
  Delete : String → Option Err

/-- The data source's report, with the fields `Fetch` reads. -/
structure DataSourceInfo where
  FilePath : String
  UUID : String
  State : String
deriving DecidableEq, Repr

/-- The outcomes of the data source service at a remote address
(`client.DataSourceClient`). -/
structure DataSourceClient where
  Get : String → Except Err DataSourceInfo
  Transfer : String → Option Err

/-- The outcomes of the port bitmap (`util.Bitmap`). -/
structure Bitmap where
  AllocateRange : Int → Except Err (Int × Int)
  ReleaseRange : Int → Int → Option Err

/-- What the continuation of a `Sync` request meets: the registry as read at
each one-second tick before the deadline, the pod IP lookup, and the peer
manager's answer to `Send`. -/
structure SyncWorld where
  registryAtTick : List FileInfoMap
  GetIPForPod : Except Err String
  peerSend : String → String → String → String → Option Err

/-- The immutable half of a response (`rpc.BackingImageSpec`). -/
structure BackingImageSpec where
  Name : String
  Uuid : String
  Size : Int
  Checksum : String
deriving DecidableEq, Repr

/-- The mutable half of a response (`rpc.BackingImageStatus`). -/
structure BackingImageStatus where
  State : String
  Checksum : String
  Progress : Int
  ErrorMsg : String
  SendingReference : Int
deriving DecidableEq, Repr

/-- The response of `Get`, `Sync` and `Fetch` (`rpc.BackingImageResponse`). -/
structure BackingImageResponse where
  Spec : BackingImageSpec
  Status : BackingImageStatus
deriving DecidableEq, Repr

/-- The request of `Sync` (`rpc.SyncRequest`). -/
structure SyncRequest where
  Spec : BackingImageSpec
  FromAddress : String
deriving DecidableEq, Repr

/-- The request of `Fetch` (`rpc.FetchRequest`). -/
structure FetchRequest where
  Spec : BackingImageSpec
  DataSourceAddress : String
deriving DecidableEq, Repr

/-- Source `backingImageResponse`. -/
def backingImageResponse (T : Types) (fInfo : FileInfo) : BackingImageResponse :=
  { Spec :=
      { Name := T.GetBackingImageNameFromFilePath fInfo.FilePath fInfo.UUID
        Uuid := fInfo.UUID
        Size := fInfo.Size
        Checksum := fInfo.ExpectedChecksum }
    Status :=
      { State := fInfo.State
        Checksum := fInfo.CurrentChecksum
        Progress := toInt32 fInfo.Progress
        ErrorMsg := fInfo.Message
        SendingReference := toInt32 fInfo.SendingReference } }

/-! ## Get -/

/-- The locked block of `getAndUpdate`: when the registry has an entry for the
name that is not deeply equal to the fresh report, `bi = fInfo` rebinds the
local variable `bi` only (the map is not written) and the flag is raised. -/
def getAndUpdateLocked (m : Manager) (name : String) (fInfo : FileInfo) : Manager :=
  match mapGet m.biFileInfoMap name with
  | some bi => if bi ≠ fInfo then { m with broadcastRequired := true } else m
  | none => m

/-- Source `getAndUpdate`: the new state, the calls made, and the result. -/
def getAndUpdate (T : Types) (sc : SyncClient) (m : Manager) (name uuid : String) :
    Manager × List Call × Except Err BackingImageResponse :=
  if name = "" ∨ uuid = "" then
    (m, [], .error (.status .InvalidArgument "missing required argument"))
  else
    let filePath := T.GetBackingImageFilePath m.diskPath name uuid
    match sc.Get filePath with
    | .error err =>
      if T.IsHTTPClientErrorNotFound err then
        (m, [.syncGet filePath],
          .error (.status .NotFound ("cannot find backing image " ++ name ++ "(" ++ uuid ++ ")")))
      else
        (m, [.syncGet filePath], .error err)
    | .ok fInfo =>
      (getAndUpdateLocked m name fInfo, [.syncGet filePath], .ok (backingImageResponse T fInfo))

/-- Source `Get`. -/
def Get (T : Types) (sc : SyncClient) (m : Manager) (name uuid : String) :
    Manager × List Call × Except Err BackingImageResponse :=
  getAndUpdate T sc m name uuid

/-! ## Delete -/

/-- What a `Delete` request did: the calls in order, the errors it logged, and
the error it returned (`none` is a nil error). -/
structure DeleteRun where
  calls : List Call
  logged : List Err
  err : Option Err
deriving DecidableEq, Repr

/-- The deferred function of `Delete`: it logs the returned error when there is
one, removes the working directory, and logs the removal's error when there is
one. -/
def deleteDeferred (T : Types) (removeAll : String → Option Err) (m : Manager)
    (name uuid : String) (err : Option Err) : List Call × List Err :=
  let dir := T.GetBackingImageDirectory m.diskPath name uuid
  ([.removeAll dir], err.toList ++ (removeAll dir).toList)

/-- Source `Delete`, given the outcomes of the sync agent and of
`os.RemoveAll`. -/
def Delete (T : Types) (sc : SyncClient) (removeAll : String → Option Err) (m : Manager)
    (name uuid : String) : DeleteRun :=
  let filePath := T.GetBackingImageFilePath m.diskPath name uuid
  match sc.Delete filePath with
  | some err =>
    let d := deleteDeferred T removeAll m name uuid (some err)
    { calls := [.syncDelete filePath] ++ d.1, logged := d.2, err := some err }
  | none =>
    let d := deleteDeferred T removeAll m name uuid none
    { calls := [.syncDelete filePath] ++ d.1, logged := d.2, err := none }

/-! ## Fetch -/

/-- The tail of `Fetch` after the source file path is settled: the sync agent's
`Fetch`, then `getAndUpdate`. -/
def fetchAdopt (T : Types) (sc : SyncClient) (m : Manager) (req : FetchRequest)
    (srcFilePath : String) : Manager × List Call × Except Err BackingImageResponse :=
  let biFilePath := T.GetBackingImageFilePath m.diskPath req.Spec.Name req.Spec.Uuid
  let call := Call.syncFetch srcFilePath biFilePath req.Spec.Uuid m.diskUUID
    req.Spec.Checksum req.Spec.Size
  match sc.Fetch srcFilePath biFilePath req.Spec.Uuid m.diskUUID req.Spec.Checksum
      req.Spec.Size with
  | some err => (m, [call], .error err)
  | none =>
    let r := getAndUpdate T sc m req.Spec.Name req.Spec.Uuid
    (r.1, call :: r.2.1, r.2.2)

/-- Source `Fetch`. -/
def Fetch (T : Types) (sc : SyncClient) (ds : DataSourceClient) (m : Manager)
    (req : FetchRequest) : Manager × List Call × Except Err BackingImageResponse :=
  if req.Spec.Name = "" ∨ req.Spec.Uuid = "" then
    (m, [], .error (.status .InvalidArgument "missing required argument"))
  else if req.DataSourceAddress ≠ "" then
    let srcFilePath := T.GetDataSourceFilePath m.diskPath req.Spec.Name req.Spec.Uuid
    match ds.Get req.DataSourceAddress with
    | .error err => (m, [.dsGet req.DataSourceAddress], .error err)
    | .ok dsInfo =>
      if dsInfo.FilePath ≠ srcFilePath ∨ dsInfo.UUID ≠ req.Spec.Uuid ∨
          (dsInfo.State ≠ T.StateReady ∧ dsInfo.State ≠ T.StateReadyForTransfer) then
        (m, [.dsGet req.DataSourceAddress],
          .error (.status .FailedPrecondition
            ("invalid data source file " ++ dsInfo.FilePath ++ " for fetch, uuid " ++
              dsInfo.UUID ++ ", state " ++ dsInfo.State)))
      else
        match ds.Transfer req.DataSourceAddress with
        | some err =>
          (m, [.dsGet req.DataSourceAddress, .dsTransfer req.DataSourceAddress], .error err)
        | none =>
          let r := fetchAdopt T sc m req srcFilePath
          (r.1, [.dsGet req.DataSourceAddress, .dsTransfer req.DataSourceAddress] ++ r.2.1,
            r.2.2)
  else
    fetchAdopt T sc m req (T.GetBackingImageFilePath m.diskPath req.Spec.Name req.Spec.Uuid)

/-! ## Ports and Sync -/

/-- Source `allocatePorts`. -/
def allocatePorts (bm : Bitmap) (portCount : Int) : List Call × Except Err (Int × Int) :=
  if portCount < 0 then
    ([], .error (.fmt ("invalid port count " ++ toString portCount)))
  else if portCount = 0 then
    ([], .ok (0, 0))
  else
    match bm.AllocateRange portCount with
    | .error err =>
      ([.allocateRange portCount],
        .error (.wrapped err ("fail to allocate " ++ toString portCount ++ " ports")))
    | .ok r => ([.allocateRange portCount], .ok r)

/-- Source `releasePorts`. -/
def releasePorts (bm : Bitmap) (start endPort : Int) : List Call × Option Err :=
  if start < 0 ∨ endPort < 0 then
    ([], some (.fmt ("invalid start/end port " ++ toString start ++ " " ++ toString endPort)))
  else
    ([.releaseRange start endPort], bm.ReleaseRange start endPort)

/-- Source `waitForFileStateNonPending`: one registry read per tick before the
deadline; the first entry found in a state other than pending is returned, and
running out of ticks is the timeout. -/
def waitForFileStateNonPending (T : Types) (name : String) :
    List FileInfoMap → Except Err FileInfo
  | [] =>
    .error (.fmt ("failed to wait for backing image " ++ name ++ " becoming state non-pending"))
  | snapshot :: rest =>
    match mapGet snapshot name with
    | some biFileInfo =>
      if biFileInfo.State ≠ T.StatePending then .ok biFileInfo
      else waitForFileStateNonPending T name rest
    | none => waitForFileStateNonPending T name rest

/-- The body of the continuation goroutine of `Sync`, before its deferred
function: the calls it makes and the error it ends with. -/
def syncContinuationBody (T : Types) (w : SyncWorld) (req : SyncRequest) (port : Int) :
    List Call × Option Err :=
  match waitForFileStateNonPending T req.Spec.Name w.registryAtTick with
  | .error err => ([], some err)
  | .ok biFileInfo =>
    if biFileInfo.State ≠ T.StateStarting then
      ([], none)
    else
      match w.GetIPForPod with
      | .error err => ([.getIPForPod], some err)
      | .ok receiverIP =>
        let toAddress := receiverIP ++ ":" ++ toString port
        let call := Call.peerSend req.FromAddress req.Spec.Name req.Spec.Uuid toAddress
        match w.peerSend req.FromAddress req.Spec.Name req.Spec.Uuid toAddress with
        | some err =>
          ([.getIPForPod, call],
            some (.wrapped err "sender failed to request backing image sending"))
        | none => ([.getIPForPod, call], none)

/-- The continuation goroutine of `Sync`: the body, then the deferred send on
the port release channel. -/
def syncContinuation (T : Types) (w : SyncWorld) (req : SyncRequest) (port : Int) :
    List Call × Option Err :=
  let r := syncContinuationBody T w req port
  (r.1 ++ [.portReleaseSignal], r.2)

/-- What a `Sync` request did: the handler's state, result and calls, the port
captured by the release goroutine when that goroutine was started, and the
continuation's calls when the continuation was started. -/
structure SyncRun where
  m : Manager
  resp : Except Err BackingImageResponse
  handler : List Call
  releaser : Option Int
  continuation : Option (List Call)

/-- Source `Sync`. -/
def Sync (T : Types) (bm : Bitmap) (sc : SyncClient) (w : SyncWorld) (m : Manager)
    (req : SyncRequest) : SyncRun :=
  match allocatePorts bm 1 with
  | (calls, .error err) =>
    { m := m, resp := .error err, handler := calls, releaser := none, continuation := none }
  | (calls, .ok (port, _)) =>
    let biFilePath := T.GetBackingImageFilePath m.diskPath req.Spec.Name req.Spec.Uuid
    let receive := Call.syncReceive biFilePath req.Spec.Uuid m.diskUUID req.Spec.Checksum ""
      port req.Spec.Size
    match sc.Receive biFilePath req.Spec.Uuid m.diskUUID req.Spec.Checksum "" port
        req.Spec.Size with
    | some err =>
      { m := m, resp := .error err, handler := calls ++ [receive, .portReleaseSignal],
        releaser := some port, continuation := none }
    | none =>
      let r := getAndUpdate T sc m req.Spec.Name req.Spec.Uuid
      { m := r.1, resp := r.2.2, handler := calls ++ receive :: r.2.1,
        releaser := some port,
        continuation := some (syncContinuation T w req port).1 }

/-- The sends on the port release channel during a `Sync` request, by the
handler and by the continuation. -/
def SyncRun.signals (r : SyncRun) : Nat :=
  (r.handler ++ r.continuation.getD []).count .portReleaseSignal

/-- The release goroutine of `Sync`: started with the allocated port, it
receives once from the port release channel and then calls
`releasePorts(port, port+1)`.  The result lists the argument pairs of its
`releasePorts` calls. -/
def SyncRun.released (r : SyncRun) : List (Int × Int) :=
  match r.releaser with
  | none => []
  | some port => if 0 < r.signals then [(port, toInt32 (port + 1))] else []

/-! ## A concrete instance for worked examples -/

/-- Modelled from the spec: the helpers of package `types` are not part of the
reviewed sources.  A backing image lives in the per-image working directory
`<disk>/backing-images/<name>-<uuid>`, its file is `backing` in that directory,
a data source stages its file as `tmp/<name>-<uuid>` under the same root, and
the image name is derived from the file path and the UUID by taking the
directory's name without its `-<uuid>` suffix. -/
def sampleTypes : Types where
  StatePending := "pending"
  StateStarting := "starting"
  StateReady := "ready"
  StateReadyForTransfer := "ready-for-transfer"
  GetBackingImageDirectory := fun diskPath name uuid =>
    diskPath ++ "/backing-images/" ++ name ++ "-" ++ uuid
  GetBackingImageFilePath := fun diskPath name uuid =>
    diskPath ++ "/backing-images/" ++ name ++ "-" ++ uuid ++ "/backing"
  GetDataSourceFilePath := fun diskPath name uuid =>
    diskPath ++ "/tmp/" ++ name ++ "-" ++ uuid
  GetBackingImageNameFromFilePath := fun filePath uuid =>
    let dir := ((filePath.splitOn "/").dropLast.getLast?).getD ""
    if dir.endsWith ("-" ++ uuid) then dir.dropRight (uuid.length + 1) else dir
  IsHTTPClientErrorNotFound := fun err =>
    match err with
    | .external msg => msg == "404"
    | _ => false

/-- The image `img1` of instance `u1`, as reported while it waits to start. -/
def img1Pending : FileInfo where
  FilePath := "/data/backing-images/img1-u1/backing"
  UUID := "u1"
  Size := 1024
  ExpectedChecksum := "abc"
  State := "pending"
  CurrentChecksum := ""
  Progress := 0
  Message := ""
  SendingReference := 0

/-- The image `img1` of instance `u1`, as reported once it is complete. -/
def img1Ready : FileInfo :=
  { img1Pending with State := "ready", CurrentChecksum := "abc", Progress := 100 }

/-- A manager on disk `/data` with an empty registry and no broadcast due. -/
def emptyManager : Manager where
  diskUUID := "disk1"
  diskPath := "/data"
  biFileInfoMap := []
  broadcastRequired := false

/-- A manager whose registry holds `img1` as pending, no broadcast due. -/
def pendingManager : Manager :=
  { emptyManager with biFileInfoMap := [("img1", img1Pending)] }

/-- A sync agent that accepts every request and reports `img1` as ready. -/
def readyAgent : SyncClient where
  Get := fun _ => .ok img1Ready
  Receive := fun _ _ _ _ _ _ _ => none
  Fetch := fun _ _ _ _ _ _ => none
  Delete := fun _ => none

/-- A sync agent whose every request fails. -/
def failingAgent : SyncClient where
  Get := fun _ => .error (.external "connection refused")
  Receive := fun _ _ _ _ _ _ _ => some (.external "connection refused")
  Fetch := fun _ _ _ _ _ _ => some (.external "connection refused")
  Delete := fun _ => some (.external "connection refused")

/-- A port bitmap whose first free port is 5000. -/
def bitmapFrom5000 : Bitmap where
  AllocateRange := fun count => .ok (5000, 5000 + count)
  ReleaseRange := fun _ _ => none

/-- A port bitmap with no free port. -/
def bitmapFull : Bitmap where
  AllocateRange := fun _ => .error (.external "out of ports")
  ReleaseRange := fun _ _ => none

/-- A world in which the registry shows `img1` as starting at the second tick,
the pod has an IP and the peer accepts the `Send` request. -/
def startingWorld : SyncWorld where
  registryAtTick := [[("img1", img1Pending)], [("img1", { img1Pending with State := "starting" })]]
  GetIPForPod := .ok "10.0.0.1"
  peerSend := fun _ _ _ _ => none

/-- A data source that reports the staged file of `img1` in the given state and
accepts the transfer. -/
def dataSourceInState (state : String) : DataSourceClient where
  Get := fun _ => .ok { FilePath := "/data/tmp/img1-u1", UUID := "u1", State := state }
  Transfer := fun _ => none

/-- The specification part of the requests about `img1`. -/
def img1Spec : BackingImageSpec where
  Name := "img1"
  Uuid := "u1"
  Size := 1024
  Checksum := "abc"

/-! ## Lemmas on the registry map -/

theorem mapGet_mapSet (m : FileInfoMap) (k : String) (v : FileInfo) (key : String) :
    mapGet (mapSet m k v) key = if k = key then some v else mapGet m key := by
  induction m with
  | nil => simp [mapSet, mapGet]
  | cons hd tl ih =>
    obtain ⟨k0, v0⟩ := hd
    by_cases h0 : k0 = k
    · subst h0
      by_cases h1 : k0 = key <;> simp [mapSet, mapGet, h1]
    · by_cases h1 : k0 = key
      · subst h1
        have h2 : ¬ k = k0 := fun h => h0 h.symm
        simp [mapSet, mapGet, h0, h2]
      · simp [mapSet, mapGet, h0, h1, ih]

theorem mapGet_eq_none_iff (m : FileInfoMap) (key : String) :
    mapGet m key = none ↔ key ∉ mapKeys m := by
  induction m with
  | nil => simp [mapGet, mapKeys]
  | cons hd tl ih =>
    obtain ⟨k0, v0⟩ := hd
    by_cases h : k0 = key
    · subst h
      simp [mapGet, mapKeys]
    · have h2 : ¬ key = k0 := fun e => h e.symm
      simp only [mapKeys] at ih
      simp [mapGet, mapKeys, h, h2, ih]

theorem listStep_fst (T : Types) (old : FileInfoMap) (acc : FileInfoMap × Bool)
    (e : String × FileInfo) :
    (listStep T old acc e).1 =
      mapSet acc.1 (T.GetBackingImageNameFromFilePath e.1 e.2.UUID) e.2 := by
  simp only [listStep]
  split <;> rfl

theorem listStep_snd (T : Types) (old : FileInfoMap) (acc : FileInfoMap × Bool)
    (e : String × FileInfo) :
    (listStep T old acc e).2 =
      (acc.2 || decide (mapGet old (T.GetBackingImageNameFromFilePath e.1 e.2.UUID) = some e.2)) := by
  simp only [listStep]
  cases h : acc.2 <;> simp
  split <;> simp_all

theorem foldl_listStep_fst (T : Types) (old : FileInfoMap) (L : List (String × FileInfo))
    (acc : FileInfoMap × Bool) :
    (L.foldl (listStep T old) acc).1 =
      L.foldl (fun a e => mapSet a (T.GetBackingImageNameFromFilePath e.1 e.2.UUID) e.2)
        acc.1 := by
  induction L generalizing acc with
  | nil => rfl
  | cons e rest ih => simp only [List.foldl_cons, ih, listStep_fst]

theorem foldl_listStep_snd (T : Types) (old : FileInfoMap) (L : List (String × FileInfo))
    (acc : FileInfoMap × Bool) :
    (L.foldl (listStep T old) acc).2 =
      (acc.2 || L.any (fun e =>
        decide (mapGet old (T.GetBackingImageNameFromFilePath e.1 e.2.UUID) = some e.2))) := by
  induction L generalizing acc with
  | nil => simp
  | cons e rest ih =>
    simp only [List.foldl_cons, ih, listStep_snd, List.any_cons, Bool.or_assoc]

theorem listLoop_fst (T : Types) (old : FileInfoMap) (L : List (String × FileInfo))
    (flag : Bool) : (listLoop T old L flag).1 = mapFromListing T L := by
  unfold listLoop mapFromListing
  exact foldl_listStep_fst T old L ([], flag)

theorem listLoop_snd (T : Types) (old : FileInfoMap) (L : List (String × FileInfo))
    (flag : Bool) :
    (listLoop T old L flag).2 =
      (flag || L.any (fun e =>
        decide (mapGet old (T.GetBackingImageNameFromFilePath e.1 e.2.UUID) = some e.2))) := by
  unfold listLoop
  exact foldl_listStep_snd T old L ([], flag)

theorem deletionLoop_eq (new : FileInfoMap) (keys : List String) (flag : Bool) :
    deletionLoop new keys flag = (flag || keys.any (fun k => (mapGet new k).isNone)) := by
  induction keys generalizing flag with
  | nil => simp [deletionLoop]
  | cons k rest ih =>
    cases hk : (mapGet new k).isNone <;> cases flag <;> simp [deletionLoop, hk, ih]

/-- The flag after a successful refresh, in closed form: the old flag, or some
listed entry deeply equal to its cached entry, or some cached name missing from
the new map. -/
theorem listAndUpdate_flag (T : Types) (m : Manager) (L : List (String × FileInfo)) :
    (listAndUpdate T m (.ok L)).1.broadcastRequired =
      (m.broadcastRequired ||
        L.any (fun e => decide
          (mapGet m.biFileInfoMap (T.GetBackingImageNameFromFilePath e.1 e.2.UUID) = some e.2)) ||
        (mapKeys m.biFileInfoMap).any (fun k => (mapGet (mapFromListing T L) k).isNone)) := by
  simp only [listAndUpdate, deletionLoop_eq, listLoop_snd, listLoop_fst]

theorem mapFromListing_append (T : Types) (L : List (String × FileInfo))
    (e : String × FileInfo) :
    mapFromListing T (L ++ [e]) =
      mapSet (mapFromListing T L) (T.GetBackingImageNameFromFilePath e.1 e.2.UUID) e.2 := by
  simp [mapFromListing, List.foldl_append]

/-- Reading the map of a listing: the last listed entry of that name. -/
theorem mapGet_mapFromListing (T : Types) (L : List (String × FileInfo)) (key : String) :
    mapGet (mapFromListing T L) key =
      ((L.filter (fun e =>
        decide (T.GetBackingImageNameFromFilePath e.1 e.2.UUID = key))).getLast?).map
        Prod.snd := by
  induction L using List.reverseRecOn with
  | nil => simp [mapFromListing, mapGet]
  | append_singleton L e ih =>
    rw [mapFromListing_append, mapGet_mapSet, ih, List.filter_append]
    by_cases h : T.GetBackingImageNameFromFilePath e.1 e.2.UUID = key
    · simp [h, List.filter_cons]
    · simp [h, List.filter_cons]

theorem mem_mapKeys_mapFromListing (T : Types) (L : List (String × FileInfo)) (key : String) :
    key ∈ mapKeys (mapFromListing T L) ↔
      ∃ e ∈ L, T.GetBackingImageNameFromFilePath e.1 e.2.UUID = key := by
  rw [← not_iff_not, ← mapGet_eq_none_iff, mapGet_mapFromListing]
  simp [List.getLast?_eq_none_iff, List.filter_eq_nil_iff]

/-! ## The refresh of the registry -/

/-- C2: a refresh that meets a listed image missing from the cache, or listed
with a changed field, is claimed to raise `broadcastRequired`.  The code does
not: with the flag down, the image `img1` newly listed against an empty cache
leaves it down, and so does `img1` listed as ready against a cache that holds
it as pending (whatever name the path helper derives, the cache holding the
image under that name). -/
theorem listAndUpdate_change_not_flagged (T : Types) :
    (listAndUpdate T emptyManager
      (.ok [(img1Ready.FilePath, img1Ready)])).1.broadcastRequired = false ∧
    (listAndUpdate T
      { emptyManager with
        biFileInfoMap :=
          [(T.GetBackingImageNameFromFilePath img1Ready.FilePath img1Ready.UUID, img1Pending)] }
      (.ok [(img1Ready.FilePath, img1Ready)])).1.broadcastRequired = false := by
  constructor
  · simp [listAndUpdate_flag, emptyManager, mapKeys, mapGet]
  · have hne : img1Pending ≠ img1Ready := by decide
    simp [listAndUpdate_flag, emptyManager, mapKeys, mapGet, mapGet_mapFromListing, hne]

/-- C3: when a name of the cache is the derived name of no listed entry (a
deletion was observed), a successful refresh leaves `broadcastRequired` true,
whatever the flag was before. -/
theorem listAndUpdate_flags_deletion (T : Types) (m : Manager)
    (L : List (String × FileInfo)) (key : String)
    (hkey : key ∈ mapKeys m.biFileInfoMap)
    (habsent : ∀ e ∈ L, T.GetBackingImageNameFromFilePath e.1 e.2.UUID ≠ key) :
    (listAndUpdate T m (.ok L)).1.broadcastRequired = true := by
  have hnone : mapGet (mapFromListing T L) key = none := by
    rw [mapGet_eq_none_iff, mem_mapKeys_mapFromListing]
    rintro ⟨e, he, hk⟩
    exact habsent e he hk
  rw [listAndUpdate_flag]
  have : (mapKeys m.biFileInfoMap).any (fun k => (mapGet (mapFromListing T L) k).isNone)
      = true := by
    rw [List.any_eq_true]
    exact ⟨key, hkey, by simp [hnone]⟩
  simp [this]

theorem listAndUpdate_flags_deletion_witness :
    "img1" ∈ mapKeys pendingManager.biFileInfoMap ∧
    (listAndUpdate sampleTypes pendingManager (.ok [])).1.broadcastRequired = true :=
  ⟨by decide,
    listAndUpdate_flags_deletion sampleTypes pendingManager [] "img1" (by decide)
      (by intro e he; cases he)⟩

/-- C4: after a successful refresh the registry is the map built from the
listing alone, whatever the cache held, and that map is the one returned: its
names are exactly the names derived from the listing, and under each name it
holds the last listed entry of that name.  When the sync agent's `List` fails,
the error is returned and the manager (registry and flag) is unchanged. -/
theorem listAndUpdate_replaces_registry (T : Types) (m : Manager) :
    (∀ L : List (String × FileInfo),
      (listAndUpdate T m (.ok L)).1.biFileInfoMap = mapFromListing T L ∧
      (listAndUpdate T m (.ok L)).2 = .ok (mapFromListing T L) ∧
      (listAndUpdate T m (.ok L)).1.diskPath = m.diskPath ∧
      (listAndUpdate T m (.ok L)).1.diskUUID = m.diskUUID ∧
      (∀ key, key ∈ mapKeys (mapFromListing T L) ↔
        ∃ e ∈ L, T.GetBackingImageNameFromFilePath e.1 e.2.UUID = key) ∧
      (∀ key, mapGet (mapFromListing T L) key =
        ((L.filter (fun e =>
          decide (T.GetBackingImageNameFromFilePath e.1 e.2.UUID = key))).getLast?).map
          Prod.snd) ∧
      (∀ key fInfo, mapGet (mapFromListing T L) key = some fInfo →
        ∃ filePath, (filePath, fInfo) ∈ L ∧
          T.GetBackingImageNameFromFilePath filePath fInfo.UUID = key)) ∧
    (∀ err : Err, listAndUpdate T m (.error err) = (m, .error err)) := by
  refine ⟨fun L => ⟨?_, ?_, rfl, rfl, mem_mapKeys_mapFromListing T L,
    mapGet_mapFromListing T L, ?_⟩, fun err => rfl⟩
  · simp only [listAndUpdate, listLoop_fst]
  · simp only [listAndUpdate, listLoop_fst]
  · intro key fInfo h
    rw [mapGet_mapFromListing] at h
    obtain ⟨e, he, hv⟩ := Option.map_eq_some'.mp h
    have hmem := List.mem_of_getLast?_eq_some he
    rw [List.mem_filter] at hmem
    obtain ⟨p, f⟩ := e
    simp only at hv
    subst hv
    exact ⟨p, hmem.1, by simpa using hmem.2⟩

/-! ## The broadcast flag -/

/-- C5: `checkBroadcasting` returns the value the flag had, leaves the flag
false and the rest of the manager (the registry included) as it was; one tick
of the broadcast loop pushes exactly one notification when the flag was true
and none when it was false, and the tick after it pushes none. -/
theorem checkBroadcasting_reads_and_clears (m : Manager) :
    (checkBroadcasting m).2 = m.broadcastRequired ∧
    (checkBroadcasting m).1 = { m with broadcastRequired := false } ∧
    (checkBroadcasting m).1.biFileInfoMap = m.biFileInfoMap ∧
    (startBroadcastingTick m).1 = (checkBroadcasting m).1 ∧
    (startBroadcastingTick m).2 = (if m.broadcastRequired then [()] else []) ∧
    (startBroadcastingTick m).2.length = (if m.broadcastRequired then 1 else 0) ∧
    (startBroadcastingTick (startBroadcastingTick m).1).2 = [] := by
  obtain ⟨u, d, reg, flag⟩ := m
  cases flag <;> simp [checkBroadcasting, startBroadcastingTick]

/-! ## Get -/

/-- C6: `getAndUpdate` is claimed to store the fresh report in the registry
when the cached entry differs.  The code raises the flag but leaves the
registry as it was: with `img1` cached as pending and reported as ready, the
entry read back after the call is still the pending one. -/
theorem getAndUpdate_keeps_stale_entry (T : Types) :
    (getAndUpdate T readyAgent pendingManager "img1" "u1").2.2 =
      .ok (backingImageResponse T img1Ready) ∧
    mapGet (getAndUpdate T readyAgent pendingManager "img1" "u1").1.biFileInfoMap "img1" =
      some img1Pending ∧
    img1Pending ≠ img1Ready ∧
    (getAndUpdate T readyAgent pendingManager "img1" "u1").1.broadcastRequired = true := by
  have hne : img1Pending ≠ img1Ready := by decide
  simp [getAndUpdate, getAndUpdateLocked, readyAgent, pendingManager, emptyManager, mapGet, hne]

/-- C8: with an empty name or an empty uuid, `Get` fails with
`InvalidArgument`, calls nothing and returns the manager unchanged; with both
non-empty its only call is one `Get` of the sync agent on the image's file
path, and an `InvalidArgument` result can only be the sync agent's own error
handed back. -/
theorem Get_validation (T : Types) (sc : SyncClient) (m : Manager) (name uuid : String) :
    (name = "" ∨ uuid = "" →
      Get T sc m name uuid =
        (m, [], .error (.status .InvalidArgument "missing required argument"))) ∧
    (name ≠ "" → uuid ≠ "" →
      (Get T sc m name uuid).2.1 =
        [.syncGet (T.GetBackingImageFilePath m.diskPath name uuid)] ∧
      ∀ msg, (Get T sc m name uuid).2.2 = .error (.status .InvalidArgument msg) →
        sc.Get (T.GetBackingImageFilePath m.diskPath name uuid) =
          .error (.status .InvalidArgument msg)) := by
  constructor
  · intro h
    simp [Get, getAndUpdate, h]
  · intro hn hu
    have hv : ¬ (name = "" ∨ uuid = "") := by simp [hn, hu]
    cases hget : sc.Get (T.GetBackingImageFilePath m.diskPath name uuid) with
    | error err =>
      by_cases hnf : T.IsHTTPClientErrorNotFound err = true
      · simp [Get, getAndUpdate, hv, hget, hnf]
      · simp [Get, getAndUpdate, hv, hget, hnf]
    | ok fInfo => simp [Get, getAndUpdate, hv, hget]

theorem Get_validation_witness :
    Get sampleTypes readyAgent pendingManager "" "u1" =
      (pendingManager, [], .error (.status .InvalidArgument "missing required argument")) ∧
    (Get sampleTypes readyAgent pendingManager "img1" "u1").2.1 =
      [.syncGet (sampleTypes.GetBackingImageFilePath pendingManager.diskPath "img1" "u1")] :=
  ⟨(Get_validation sampleTypes readyAgent pendingManager "" "u1").1 (Or.inl rfl),
    ((Get_validation sampleTypes readyAgent pendingManager "img1" "u1").2
      (by decide) (by decide)).1⟩

/-! ## Delete -/

/-- C10: whatever the sync agent's delete and the directory removal answer,
`Delete` calls the sync agent's delete on the image's file path first, then the
removal of the image's working directory exactly once, and returns exactly the
sync agent's error (nil when it succeeded); a removal error is only logged. -/
theorem Delete_always_removes_directory (T : Types) (sc : SyncClient)
    (removeAll : String → Option Err) (m : Manager) (name uuid : String) :
    (Delete T sc removeAll m name uuid).calls =
      [.syncDelete (T.GetBackingImageFilePath m.diskPath name uuid),
       .removeAll (T.GetBackingImageDirectory m.diskPath name uuid)] ∧
    (Delete T sc removeAll m name uuid).err =
      sc.Delete (T.GetBackingImageFilePath m.diskPath name uuid) ∧
    (Delete T sc removeAll m name uuid).logged =
      (sc.Delete (T.GetBackingImageFilePath m.diskPath name uuid)).toList ++
        (removeAll (T.GetBackingImageDirectory m.diskPath name uuid)).toList := by
  cases h : sc.Delete (T.GetBackingImageFilePath m.diskPath name uuid) <;>
    simp [Delete, deleteDeferred, h]

/-! ## Fetch -/

/-- C9: for a request with non-empty name, uuid and data source address, when
the data source's `Get` succeeds with `d`: if `d` has another file path than
the expected one, another uuid than the requested one, or a state that is
neither ready nor ready-for-transfer, `Fetch` fails with `FailedPrecondition`
and its only call is that `Get` (no `Transfer`, no sync agent `Fetch`);
otherwise `Transfer` is the second call, the sync agent's `Fetch` follows it
when it succeeds, and nothing follows it when it fails. -/
theorem Fetch_checks_data_source (T : Types) (sc : SyncClient) (ds : DataSourceClient)
    (m : Manager) (req : FetchRequest) (d : DataSourceInfo)
    (hname : req.Spec.Name ≠ "") (huuid : req.Spec.Uuid ≠ "")
    (haddr : req.DataSourceAddress ≠ "")
    (hget : ds.Get req.DataSourceAddress = .ok d) :
    ((d.FilePath ≠ T.GetDataSourceFilePath m.diskPath req.Spec.Name req.Spec.Uuid ∨
        d.UUID ≠ req.Spec.Uuid ∨
        (d.State ≠ T.StateReady ∧ d.State ≠ T.StateReadyForTransfer)) →
      (∃ msg, (Fetch T sc ds m req).2.2 = .error (.status .FailedPrecondition msg)) ∧
      (Fetch T sc ds m req).2.1 = [.dsGet req.DataSourceAddress] ∧
      (Fetch T sc ds m req).1 = m) ∧
    (¬ (d.FilePath ≠ T.GetDataSourceFilePath m.diskPath req.Spec.Name req.Spec.Uuid ∨
        d.UUID ≠ req.Spec.Uuid ∨
        (d.State ≠ T.StateReady ∧ d.State ≠ T.StateReadyForTransfer)) →
      (∀ err, ds.Transfer req.DataSourceAddress = some err →
        (Fetch T sc ds m req).2.1 =
          [.dsGet req.DataSourceAddress, .dsTransfer req.DataSourceAddress] ∧
        (Fetch T sc ds m req).2.2 = .error err) ∧
      (ds.Transfer req.DataSourceAddress = none →
        ∃ rest, (Fetch T sc ds m req).2.1 =
          .dsGet req.DataSourceAddress :: .dsTransfer req.DataSourceAddress ::
            .syncFetch (T.GetDataSourceFilePath m.diskPath req.Spec.Name req.Spec.Uuid)
              (T.GetBackingImageFilePath m.diskPath req.Spec.Name req.Spec.Uuid)
              req.Spec.Uuid m.diskUUID req.Spec.Checksum req.Spec.Size :: rest)) := by
  have hv : ¬ (req.Spec.Name = "" ∨ req.Spec.Uuid = "") := by simp [hname, huuid]
  refine ⟨fun hbad => ?_, fun hgood => ⟨fun err htr => ?_, fun htr => ?_⟩⟩
  · simp only [Fetch, if_neg hv, haddr, ne_eq, not_false_eq_true, if_true, hget, if_pos hbad]
    simp
  · simp only [Fetch, if_neg hv, haddr, ne_eq, not_false_eq_true, if_true, hget,
      if_neg hgood, htr]
    simp
  · simp only [Fetch, if_neg hv, haddr, ne_eq, not_false_eq_true, if_true, hget,
      if_neg hgood, htr, fetchAdopt]
    cases hf : sc.Fetch (T.GetDataSourceFilePath m.diskPath req.Spec.Name req.Spec.Uuid)
        (T.GetBackingImageFilePath m.diskPath req.Spec.Name req.Spec.Uuid)
        req.Spec.Uuid m.diskUUID req.Spec.Checksum req.Spec.Size with
    | none => exact ⟨_, rfl⟩
    | some err => exact ⟨[], rfl⟩

theorem Fetch_checks_data_source_witness :
    (∃ msg, (Fetch sampleTypes readyAgent (dataSourceInState "starting") emptyManager
      { Spec := img1Spec, DataSourceAddress := "10.0.0.3:8000" }).2.2 =
        .error (.status .FailedPrecondition msg)) ∧
    (Fetch sampleTypes readyAgent (dataSourceInState "starting") emptyManager
      { Spec := img1Spec, DataSourceAddress := "10.0.0.3:8000" }).2.1 =
        [.dsGet "10.0.0.3:8000"] :=
  have h := (Fetch_checks_data_source sampleTypes readyAgent (dataSourceInState "starting")
    emptyManager { Spec := img1Spec, DataSourceAddress := "10.0.0.3:8000" }
    { FilePath := "/data/tmp/img1-u1", UUID := "u1", State := "starting" }
    (by decide) (by decide) (by decide) rfl).1
    (Or.inr (Or.inr ⟨by decide, by decide⟩))
  ⟨h.1, h.2.1⟩

/-! ## Sync -/

theorem getAndUpdate_calls_no_signal (T : Types) (sc : SyncClient) (m : Manager)
    (name uuid : String) :
    (getAndUpdate T sc m name uuid).2.1.count .portReleaseSignal = 0 := by
  by_cases hv : name = "" ∨ uuid = ""
  · simp [getAndUpdate, hv]
  · cases hget : sc.Get (T.GetBackingImageFilePath m.diskPath name uuid) with
    | error err =>
      by_cases hnf : T.IsHTTPClientErrorNotFound err = true <;>
        simp [getAndUpdate, hv, hget, hnf]
    | ok fInfo => simp [getAndUpdate, hv, hget]

theorem syncContinuationBody_no_signal (T : Types) (w : SyncWorld) (req : SyncRequest)
    (port : Int) :
    (syncContinuationBody T w req port).1.count .portReleaseSignal = 0 := by
  cases hwait : waitForFileStateNonPending T req.Spec.Name w.registryAtTick with
  | error err => simp [syncContinuationBody, hwait]
  | ok biFileInfo =>
    by_cases hst : biFileInfo.State = T.StateStarting
    · cases hip : w.GetIPForPod with
      | error err => simp [syncContinuationBody, hwait, hst, hip]
      | ok receiverIP =>
        cases hsend : w.peerSend req.FromAddress req.Spec.Name req.Spec.Uuid
            (receiverIP ++ ":" ++ toString port) <;>
          simp [syncContinuationBody, hwait, hst, hip, hsend]
    · simp [syncContinuationBody, hwait, hst]

theorem syncContinuation_one_signal (T : Types) (w : SyncWorld) (req : SyncRequest)
    (port : Int) :
    (syncContinuation T w req port).1.count .portReleaseSignal = 1 := by
  simp [syncContinuation, List.count_append, syncContinuationBody_no_signal]

/-- C7: `Sync` with an empty name is claimed to fail with `InvalidArgument`
before any side effect.  The code has no check of its own: with a free port
and an accepting sync agent it allocates the port, calls `Receive`, starts
the release goroutine and the continuation, and only then fails in
`getAndUpdate`. -/
theorem Sync_empty_name_after_side_effects (T : Types) :
    (Sync T bitmapFrom5000 readyAgent startingWorld emptyManager
      { Spec := { img1Spec with Name := "" }, FromAddress := "10.0.0.2:8000" }).resp =
        .error (.status .InvalidArgument "missing required argument") ∧
    (Sync T bitmapFrom5000 readyAgent startingWorld emptyManager
      { Spec := { img1Spec with Name := "" }, FromAddress := "10.0.0.2:8000" }).handler =
        [.allocateRange 1,
         .syncReceive (T.GetBackingImageFilePath "/data" "" "u1") "u1" "disk1" "abc" "" 5000
           1024] ∧
    (Sync T bitmapFrom5000 readyAgent startingWorld emptyManager
      { Spec := { img1Spec with Name := "" }, FromAddress := "10.0.0.2:8000" }).releaser =
        some 5000 ∧
    (Sync T bitmapFrom5000 readyAgent startingWorld emptyManager
      { Spec := { img1Spec with Name := "" },
        FromAddress := "10.0.0.2:8000" }).continuation.isSome = true := by
  simp [Sync, allocatePorts, bitmapFrom5000, readyAgent, emptyManager, img1Spec, getAndUpdate]

/-- C1: whatever the sync agent, the registry wait, the IP lookup and the peer
answer, when `allocatePorts(1)` yields port `p` the release goroutine is
started once with `p`, exactly one send reaches the port release channel (by
the handler when `Receive` fails, by the continuation's deferred function
otherwise), and so `releasePorts(p, p+1)` is called exactly once; when the
allocation fails, nothing is started, nothing is released and `Sync` returns
the allocation error. -/
theorem Sync_releases_port_once (T : Types) (bm : Bitmap) (sc : SyncClient) (w : SyncWorld)
    (m : Manager) (req : SyncRequest) :
    (∀ p q, bm.AllocateRange 1 = .ok (p, q) →
      (Sync T bm sc w m req).releaser = some p ∧
      (Sync T bm sc w m req).signals = 1 ∧
      (Sync T bm sc w m req).released = [(p, toInt32 (p + 1))] ∧
      (-(2 ^ 31) ≤ p → p < 2 ^ 31 - 1 → toInt32 (p + 1) = p + 1) ∧
      (∀ err, sc.Receive (T.GetBackingImageFilePath m.diskPath req.Spec.Name req.Spec.Uuid)
          req.Spec.Uuid m.diskUUID req.Spec.Checksum "" p req.Spec.Size = some err →
        (Sync T bm sc w m req).resp = .error err ∧
        (Sync T bm sc w m req).continuation = none ∧
        (Sync T bm sc w m req).handler.count .portReleaseSignal = 1) ∧
      (sc.Receive (T.GetBackingImageFilePath m.diskPath req.Spec.Name req.Spec.Uuid)
          req.Spec.Uuid m.diskUUID req.Spec.Checksum "" p req.Spec.Size = none →
        (Sync T bm sc w m req).continuation = some (syncContinuation T w req p).1 ∧
        (syncContinuation T w req p).1.count .portReleaseSignal = 1 ∧
        (Sync T bm sc w m req).handler.count .portReleaseSignal = 0)) ∧
    (∀ err, bm.AllocateRange 1 = .error err →
      (Sync T bm sc w m req).resp = .error (.wrapped err "fail to allocate 1 ports") ∧
      (Sync T bm sc w m req).releaser = none ∧
      (Sync T bm sc w m req).continuation = none ∧
      (Sync T bm sc w m req).signals = 0 ∧
      (Sync T bm sc w m req).released = [] ∧
      (Sync T bm sc w m req).handler = [.allocateRange 1]) := by
  have hmsg : "fail to allocate " ++ toString (1 : Int) ++ " ports" =
      "fail to allocate 1 ports" := by decide
  constructor
  · intro p q halloc
    have hwrap : -(2 ^ 31) ≤ p → p < 2 ^ 31 - 1 → toInt32 (p + 1) = p + 1 := by
      intro h1 h2
      unfold toInt32
      omega
    refine ⟨?_, ?_, ?_, hwrap, ?_, ?_⟩ <;>
    cases hrecv : sc.Receive (T.GetBackingImageFilePath m.diskPath req.Spec.Name req.Spec.Uuid)
        req.Spec.Uuid m.diskUUID req.Spec.Checksum "" p req.Spec.Size with
    | some err =>
      simp [Sync, allocatePorts, halloc, hrecv, SyncRun.signals, SyncRun.released]
    | none =>
      have hg := getAndUpdate_calls_no_signal T sc m req.Spec.Name req.Spec.Uuid
      have hc := syncContinuation_one_signal T w req p
      simp [Sync, allocatePorts, halloc, hrecv, SyncRun.signals, SyncRun.released,
        List.count_append, List.count_cons, hg, hc]
  · intro err halloc
    simp [Sync, allocatePorts, halloc, SyncRun.signals, SyncRun.released, hmsg]

theorem Sync_releases_port_once_witness :
    (Sync sampleTypes bitmapFrom5000 readyAgent startingWorld emptyManager
      { Spec := img1Spec, FromAddress := "10.0.0.2:8000" }).released = [(5000, 5001)] ∧
    (Sync sampleTypes bitmapFrom5000 readyAgent startingWorld emptyManager
      { Spec := img1Spec, FromAddress := "10.0.0.2:8000" }).signals = 1 ∧
    (Sync sampleTypes bitmapFull readyAgent startingWorld emptyManager
      { Spec := img1Spec, FromAddress := "10.0.0.2:8000" }).released = [] :=
  have h := (Sync_releases_port_once sampleTypes bitmapFrom5000 readyAgent startingWorld
    emptyManager { Spec := img1Spec, FromAddress := "10.0.0.2:8000" }).1 5000 (5000 + 1) rfl
  have h0 := (Sync_releases_port_once sampleTypes bitmapFull readyAgent startingWorld
    emptyManager { Spec := img1Spec, FromAddress := "10.0.0.2:8000" }).2
    (.external "out of ports") rfl
  ⟨h.2.2.1, h.2.1, h0.2.2.2.2.1⟩

/-! ## A refresh that observes no change -/

/-- C11: a refresh whose listing agrees with the cache name for name and field
for field is claimed to leave `broadcastRequired` false.  The code raises it:
with the flag down and `img1` cached as ready (under the name the path helper
derives), listing the very same `img1` leaves the registry as it was and yet
ends with the flag up. -/
theorem listAndUpdate_unchanged_entry_flagged (T : Types) :
    (listAndUpdate T
      { emptyManager with
        biFileInfoMap :=
          [(T.GetBackingImageNameFromFilePath img1Ready.FilePath img1Ready.UUID, img1Ready)] }
      (.ok [(img1Ready.FilePath, img1Ready)])).1.biFileInfoMap =
        [(T.GetBackingImageNameFromFilePath img1Ready.FilePath img1Ready.UUID, img1Ready)] ∧
    emptyManager.broadcastRequired = false ∧
    (listAndUpdate T
      { emptyManager with
        biFileInfoMap :=
          [(T.GetBackingImageNameFromFilePath img1Ready.FilePath img1Ready.UUID, img1Ready)] }
      (.ok [(img1Ready.FilePath, img1Ready)])).1.broadcastRequired = true := by
  refine ⟨?_, rfl, ?_⟩
  · simp [listAndUpdate, listLoop_fst, mapFromListing, mapSet]
  · simp [listAndUpdate_flag, emptyManager, mapGet]

end BackingImageManager
